import Mathlib

/-!
Shallow embedding of the claudeusagetracker repository (usage telemetry
daemon and reconciliation engine) used to check its natural-language
specification.  Each definition is translated from the Python source:
`claude_usage_daemon.py` (daemon state, session window calculator, daily
reconciler), `claude_data_parser.py` (JSONL parser), and
`validate_daemon_usage.py` (post-hoc validator).
-/

/-- Python `int(q)` applied to a float/rational value: truncation toward zero. -/
def pyInt (q : ℚ) : ℤ :=
  if 0 ≤ q then q.floor else -((-q).floor)

/-- The `extra` section of one poll record, as built by
`ClaudeUsageDaemon.collect_usage_data` (fields not read by the reconciler
are elided).  Amounts are modelled as exact rationals in place of floats. -/
structure ExtraData where
  amount_spent : ℚ
  amount_limit : ℚ
  deriving DecidableEq, Repr

/-- The `session` section of one poll record, as built by
`ClaudeUsageDaemon.collect_usage_data` (calculated_start_time elided). -/
structure SessionData where
  percent_used : ℚ
  reset_time : String
  reset_timezone : String
  deriving DecidableEq, Repr

/-- One per-date entry of the `jsonl_tokens.by_date` digest, as built by
`ClaudeUsageDaemon.collect_jsonl_data` from `TokenUsage` counters. -/
structure JsonlDayTotals where
  input_tokens : ℕ
  output_tokens : ℕ
  cache_creation_tokens : ℕ
  cache_read_tokens : ℕ
  total_tokens : ℕ
  deriving DecidableEq, Repr

/-- One combined poll record (`limits_data` with `jsonl_tokens` attached),
the argument `data` of `ClaudeUsageDaemon.update_daily_summary`.  Sections
not read by the reconciler (plan, weekly limits) are elided. -/
structure PollRecord where
  timestamp : String
  session : Option SessionData
  extra : Option ExtraData
  jsonl_by_date : List (String × JsonlDayTotals)
  deriving DecidableEq, Repr

/-- One persisted `daily_summary.json` entry for a calendar date, exactly the
dictionary created at the start of `update_daily_summary`. -/
structure DailySummaryEntry where
  session_tokens : ℤ
  extra_tokens : ℤ
  total_tokens : ℤ
  extra_cost : ℚ
  sessions_count : ℤ
  last_updated : String
  deriving DecidableEq, Repr

/-- The persisted daily summary: a date-keyed dictionary, modelled as an
insertion-ordered association list (mirroring a Python dict). -/
abbrev SummaryMap := List (String × DailySummaryEntry)

/-- The mutable daemon fields carried across reconciliation cycles
(`self.last_extra_usage`, `self.last_session_reset`). -/
structure DaemonState where
  last_extra_usage : Option ℚ
  last_session_reset : Option String
  deriving DecidableEq, Repr

/-- `ClaudeUsageDaemon.__init__` lines 51-52: both baselines start as `None`;
nothing is read back from the persisted raw poll log. -/
def daemonInitState : DaemonState :=
  { last_extra_usage := none, last_session_reset := none }

/-- Python `dict.get(key)` / `dict[key]` lookup on an association list:
first binding wins. -/
def lookupDate : SummaryMap → String → Option DailySummaryEntry
  | [], _ => none
  | (k, v) :: tl, d => if k = d then some v else lookupDate tl d

/-- Python `dict[key] = value`: replace the first binding in place, or append
a new binding at the end (insertion order preserved). -/
def setDate : SummaryMap → String → DailySummaryEntry → SummaryMap
  | [], d, e => [(d, e)]
  | (k, v) :: tl, d, e => if k = d then (d, e) :: tl else (k, v) :: setDate tl d e

/-- Lookup in the `jsonl_tokens.by_date` digest. -/
def lookupDay : List (String × JsonlDayTotals) → String → Option JsonlDayTotals
  | [], _ => none
  | (k, v) :: tl, d => if k = d then some v else lookupDay tl d

/-- Events the reconciler reports through `logger.info` while updating the
summary: an overage-cost increase, or a session reset. -/
inductive DaemonEvent where
  | overageDelta (delta : ℚ)
  | sessionReset (old new : String)
  deriving DecidableEq, Repr

/-- The assumed average cost per token used by the overage-token heuristic
(`0.000003` in the source, modelled as the exact rational). -/
def costPerToken : ℚ := 3 / 1000000

/-- The fresh entry created when today is not yet in the summary
(`update_daily_summary` lines 296-304). -/
def initEntry (ts : String) : DailySummaryEntry :=
  { session_tokens := 0, extra_tokens := 0, total_tokens := 0,
    extra_cost := 0, sessions_count := 0, last_updated := ts }

/-- `update_daily_summary` lines 306-332: overwrite today's token counts from
the JSONL digest and split them into session vs extra tokens. -/
def tokenStep (lastExtra : Option ℚ) (extra : Option ExtraData)
    (todayJsonl : Option JsonlDayTotals) (e : DailySummaryEntry) :
    DailySummaryEntry :=
  match todayJsonl with
  | none => e
  | some dt =>
    let total : ℤ := dt.total_tokens
    let e := { e with total_tokens := total }
    match lastExtra, extra with
    | some _, some ex =>
      if 0 < ex.amount_spent then
        let est := pyInt (ex.amount_spent / costPerToken)
        let xt := min est total
        { e with extra_tokens := xt, session_tokens := total - xt }
      else
        { e with session_tokens := total, extra_tokens := 0 }
    | _, _ =>
      { e with session_tokens := total, extra_tokens := 0 }

/-- `update_daily_summary` lines 334-345: overage delta detection; returns the
updated entry, the new `last_extra_usage`, and the logged events. -/
def deltaStep (lastExtra : Option ℚ) (extra : Option ExtraData)
    (e : DailySummaryEntry) :
    DailySummaryEntry × Option ℚ × List DaemonEvent :=
  match extra with
  | none => (e, lastExtra, [])
  | some ex =>
    match lastExtra with
    | some l =>
      if 0 < ex.amount_spent - l then
        ({ e with extra_cost := ex.amount_spent }, some ex.amount_spent,
          [DaemonEvent.overageDelta (ex.amount_spent - l)])
      else
        (e, some ex.amount_spent, [])
    | none => (e, some ex.amount_spent, [])

/-- `update_daily_summary` lines 347-356: session reset detection; returns the
updated entry, the new `last_session_reset`, and the logged events. -/
def resetStep (lastReset : Option String) (session : Option SessionData)
    (e : DailySummaryEntry) :
    DailySummaryEntry × Option String × List DaemonEvent :=
  match session with
  | none => (e, lastReset, [])
  | some s =>
    match lastReset with
    | some r =>
      if r ≠ s.reset_time then
        ({ e with sessions_count := e.sessions_count + 1 }, some s.reset_time,
          [DaemonEvent.sessionReset r s.reset_time])
      else
        (e, some s.reset_time, [])
    | none => (e, some s.reset_time, [])

/-- The outcome of one `update_daily_summary` call: the new daemon state, the
summary map written to `daily_summary.json`, and the logged events. -/
structure UpdateResult where
  state : DaemonState
  summary : SummaryMap
  events : List DaemonEvent
  deriving DecidableEq, Repr

/-- `ClaudeUsageDaemon.update_daily_summary` (lines 276-365), on the
exception-free path.  `today` is `datetime.now().date().isoformat()`,
passed explicitly since wall-clock time is ambient in the source. -/
def update_daily_summary (st : DaemonState) (summary : SummaryMap)
    (today : String) (data : PollRecord) : UpdateResult :=
  let e0 := (lookupDate summary today).getD (initEntry data.timestamp)
  let e1 := tokenStep st.last_extra_usage data.extra
    (lookupDay data.jsonl_by_date today) e0
  let d := deltaStep st.last_extra_usage data.extra e1
  let r := resetStep st.last_session_reset data.session d.1
  let e4 := { r.1 with last_updated := data.timestamp }
  { state := { last_extra_usage := d.2.1, last_session_reset := r.2.1 },
    summary := setDate summary today e4,
    events := d.2.2 ++ r.2.2 }

/-- Running several poll cycles in order through the reconciler, collecting
each cycle's logged events (mirrors repeated calls of `update_daily_summary`
from `ClaudeUsageDaemon.run`). -/
def runCycles (st : DaemonState) (summary : SummaryMap) (today : String) :
    List PollRecord → DaemonState × SummaryMap × List (List DaemonEvent)
  | [] => (st, summary, [])
  | r :: rs =>
    let u := update_daily_summary st summary today r
    let rest := runCycles u.state u.summary today rs
    (rest.1, rest.2.1, u.events :: rest.2.2)

/-- The on-disk states `daily_summary.json` passes through during one
persistence.  `update_daily_summary` line 361 opens the live file with mode
`w`, which truncates it in place before `json.dump` writes the new content,
so there is an intermediate state in which the file is truncated or holds
only a prefix of the new content. -/
inductive DiskFile where
  | complete (summary : SummaryMap)
  | midWrite
  deriving DecidableEq, Repr

/-- Disk-state trace of the source's in-place write (`open(file, "w")` then
`json.dump`), from `update_daily_summary` lines 360-362. -/
def directWriteTrace (old new : SummaryMap) : List DiskFile :=
  [DiskFile.complete old, DiskFile.midWrite, DiskFile.complete new]

/-- Modelled from the spec: disk-state trace of the write-to-temp-then-rename
discipline the specification prescribes (section 4.4 step 7); the live file
is only ever replaced atomically, never truncated in place. -/
def tempRenameTrace (old new : SummaryMap) : List DiskFile :=
  [DiskFile.complete old, DiskFile.complete new]

/-- `update_daily_summary` including its persistence step and the enclosing
`try/except` (lines 284 and 364-365).  `writeOk = false` models an exception
raised by the file write at line 361: it is caught and logged, so the call
still returns, the persisted map keeps its previous value, but the daemon
fields mutated at lines 345 and 356 (before the write) keep their new
values. -/
def update_daily_summary_io (st : DaemonState) (persisted : SummaryMap)
    (today : String) (data : PollRecord) (writeOk : Bool) : UpdateResult :=
  let r := update_daily_summary st persisted today data
  if writeOk then r else { r with summary := persisted }

/-- Modelled from the spec: the restart rehydration the specification
prescribes (sections 3 and 4.4) but which is absent from
`ClaudeUsageDaemon.__init__` — on startup, reload `last_extra_usage` and
`last_session_reset` from the last persisted RawPollRecord, so the first
cycle diffs against the pre-restart baseline. -/
def rehydrateBaselines (rawLog : List PollRecord) : DaemonState :=
  match rawLog.getLast? with
  | none => { last_extra_usage := none, last_session_reset := none }
  | some r =>
    { last_extra_usage := (r.extra).map (fun ex => ex.amount_spent),
      last_session_reset := (r.session).map (fun s => s.reset_time) }

/-- Lower-casing of one character, modelling Python `str.lower` on the ASCII
range used by reset-time labels. -/
def pyLowerChar (c : Char) : Char :=
  if 'A' ≤ c ∧ c ≤ 'Z' then Char.ofNat (c.toNat + 32) else c

/-- Python `str.strip()` on a character list: drop ASCII whitespace from both
ends. -/
def pyStripChars (cs : List Char) : List Char :=
  ((cs.dropWhile Char.isWhitespace).reverse.dropWhile Char.isWhitespace).reverse

/-- Substring membership `pat in cs` on character lists, modelling Python
`in` for strings. -/
def charSub (pat : List Char) : List Char → Bool
  | [] => pat.isEmpty
  | c :: rest => pat.isPrefixOf (c :: rest) || charSub pat rest

/-- Digit-string to number, modelling Python `int` on a nonempty digit
string. -/
def digitsToNat (ds : List Char) : ℕ :=
  ds.foldl (fun n c => 10 * n + (c.toNat - 48)) 0

/-- `ClaudeUsageDaemon._parse_time_to_hour` (lines 130-143): lower-case and
strip the input, extract its digits, parse them as a number (Python `int`
raises ValueError on an empty digit string, modelled as `none`), then apply
the am/pm adjustment.  No 1-12 range check is performed. -/
def parse_time_to_hour (time_str : String) : Option ℤ :=
  let cs := pyStripChars (time_str.toList.map pyLowerChar)
  let ds := cs.filter Char.isDigit
  if ds.isEmpty then none
  else
    let hour : ℤ := digitsToNat ds
    if charSub ['p', 'm'] cs ∧ hour ≠ 12 then some (hour + 12)
    else if charSub ['a', 'm'] cs ∧ hour = 12 then some 0
    else some hour

/-- A wall-clock instant in the target timezone, at minute granularity (the
reconciler zeroes seconds and microseconds on the reset instant, and second
granularity never changes which side of the reset instant `now` falls on).
`day` counts calendar days from an arbitrary epoch. -/
structure PyTime where
  day : ℤ
  hour : ℤ
  minute : ℤ
  deriving DecidableEq, Repr

/-- Total minutes of an instant. -/
def PyTime.toMinutes (t : PyTime) : ℤ :=
  t.day * 1440 + t.hour * 60 + t.minute

/-- `ClaudeUsageDaemon.calculate_session_start_time` (lines 92-128), with
`now` already taken in the target timezone (the source resolves the timezone
via pytz before comparing).  Returns the session start as total minutes, or
`none` when the enclosing `try` catches an exception: either `int` on an
empty digit string, or `datetime.replace` rejecting an hour outside 0-23.
The session window length is 5 hours = 300 minutes. -/
def calculate_session_start_time (now : PyTime) (reset_time_str : String) :
    Option ℤ :=
  match parse_time_to_hour reset_time_str with
  | none => none
  | some h =>
    if 0 ≤ h ∧ h ≤ 23 then
      let resetToday : ℤ := now.day * 1440 + h * 60
      if now.toMinutes < resetToday then some (resetToday - 300)
      else some resetToday
    else none

/-- One parsed poll of the validator (`validate_daemon_usage.LogEntry`);
timestamp elided, floats modelled as rationals. -/
structure LogEntry where
  poll_num : ℤ
  session_percent : Option ℚ
  session_reset_time : Option String
  extra_spent : Option ℚ
  extra_limit : Option ℚ
  deriving DecidableEq, Repr

/-- `LogEntry.has_session_data` (line 30-31). -/
def LogEntry.has_session_data (e : LogEntry) : Bool :=
  e.session_percent.isSome

/-- The reset test between two consecutive validator entries
(`detect_session_resets` lines 100-105): both entries carry session data and
either the reset-time label changed or the percentage dropped by strictly
more than 50 points. -/
def resetBetween (prev curr : LogEntry) : Bool :=
  if prev.has_session_data && curr.has_session_data then
    if prev.session_reset_time ≠ curr.session_reset_time then true
    else
      match prev.session_percent, curr.session_percent with
      | some p, some c => decide (p > c + 50)
      | _, _ => false
  else false

/-- The loop body of `detect_session_resets`: walk the entries keeping the
previous one, emitting the index of each detected reset. -/
def detectFrom (prev : LogEntry) (i : ℕ) : List LogEntry → List ℕ
  | [] => []
  | c :: rest =>
    (if resetBetween prev c then [i] else []) ++ detectFrom c (i + 1) rest

/-- `validate_daemon_usage.detect_session_resets` (lines 92-107): indices
`i ≥ 1` where a session reset is detected between entries `i-1` and `i`. -/
def detect_session_resets : List LogEntry → List ℕ
  | [] => []
  | e :: rest => detectFrom e 1 rest

/-- A JSON value, the result of `json.loads` on one log line. -/
inductive JVal where
  | null
  | boolean (b : Bool)
  | num (q : ℚ)
  | str (s : String)
  | arr (elems : List JVal)
  | obj (fields : List (String × JVal))

/-- Python exception kinds relevant to `parse_message` (exceptions other than
`json.JSONDecodeError` and `KeyError` escape its `except` clause). -/
inductive PyExc where
  | keyError
  | valueError
  | typeError
  | attributeError
  deriving DecidableEq, Repr

/-- Python `d.get(k)` on a decoded JSON value: `None` when the key is absent;
raises AttributeError when the receiver is not a dict. -/
def pyDictGet (v : JVal) (k : String) : Except PyExc (Option JVal) :=
  match v with
  | JVal.obj fs => Except.ok (fs.lookup k)
  | _ => Except.error PyExc.attributeError

/-- Python `d[k]` subscription: KeyError when the key is absent from a dict;
TypeError when the receiver is not subscriptable by a string. -/
def pySubscript (v : JVal) (k : String) : Except PyExc JVal :=
  match v with
  | JVal.obj fs =>
    match fs.lookup k with
    | some x => Except.ok x
    | none => Except.error PyExc.keyError
  | _ => Except.error PyExc.typeError

/-- Python `k in v` membership: key test on dicts, substring test on strings,
element test on lists, TypeError otherwise. -/
def pyIn (k : String) (v : JVal) : Except PyExc Bool :=
  match v with
  | JVal.obj fs => Except.ok (fs.any (fun p => p.1 == k))
  | JVal.str s => Except.ok (charSub k.toList s.toList)
  | JVal.arr xs =>
    Except.ok (xs.any (fun x => match x with | JVal.str t => t == k | _ => false))
  | _ => Except.error PyExc.typeError

/-- Python `data.get("type") != "assistant"`: true unless the value is the
string `"assistant"` (absence compares as `None != "assistant"`). -/
def notAssistant (ty : Option JVal) : Bool :=
  match ty with
  | some (JVal.str s) => s ≠ "assistant"
  | _ => true

/-- Python `usage_data.get(k, 0)` coerced into the `TokenUsage` integer
field: a JSON number is truncated to its integer part, the default is 0
(non-numeric payloads, which the source would store untouched, are not
modelled and read as 0). -/
def tokenField (v : Option JVal) : ℤ :=
  match v with
  | some (JVal.num q) => pyInt q
  | _ => 0

/-- `claude_data_parser.TokenUsage`: four token counters. -/
structure TokenUsage where
  input_tokens : ℤ
  output_tokens : ℤ
  cache_creation_tokens : ℤ
  cache_read_tokens : ℤ
  deriving DecidableEq, Repr

/-- `TokenUsage.total_tokens`. -/
def TokenUsage.total_tokens (u : TokenUsage) : ℤ :=
  u.input_tokens + u.output_tokens + u.cache_creation_tokens +
    u.cache_read_tokens

/-- `claude_data_parser.MessageData`.  The parsed `datetime` is modelled by
the ISO string it was parsed from. -/
structure MessageData where
  timestamp : String
  model : String
  usage : TokenUsage
  project : String
  request_id : String
  conversation_id : String
  deriving DecidableEq, Repr

/-- Python `s.replace("Z", "+00:00")` (single-character pattern: replace
every occurrence of the character). -/
def replaceZ (s : String) : String :=
  String.mk (s.toList.foldr
    (fun c acc => (if c = 'Z' then ['+', '0', '0', ':', '0', '0'] else [c]) ++ acc)
    [])

/-- Trailing UTC-offset suffix accepted by the timestamp model. -/
def offsetOk : List Char → Bool
  | [] => true
  | sgn :: h1 :: h2 :: ':' :: m1 :: m2 :: [] =>
    (sgn == '+' || sgn == '-') && [h1, h2, m1, m2].all Char.isDigit
  | _ => false

/-- Approximate model of Python `datetime.fromisoformat` as a validity test:
a `YYYY-MM-DD` date, optionally followed by a `T` or space separator, an
`HH:MM:SS` time, and an optional `+HH:MM` offset.  The stdlib's exact
accepted language is not reproduced; what matters here is that it accepts
the well-formed log timestamps and raises ValueError on malformed values. -/
def fromisoformatOk (s : String) : Bool :=
  match s.toList with
  | y1 :: y2 :: y3 :: y4 :: '-' :: m1 :: m2 :: '-' :: d1 :: d2 :: rest =>
    ([y1, y2, y3, y4, m1, m2, d1, d2].all Char.isDigit) &&
    (match rest with
     | [] => true
     | sep :: h1 :: h2 :: ':' :: n1 :: n2 :: ':' :: s1 :: s2 :: tail =>
       (sep == 'T' || sep == ' ') && [h1, h2, n1, n2, s1, s2].all Char.isDigit
         && offsetOk tail
     | _ => false)
  | _ => false

/-- The body of `ClaudeDataParser.parse_message` (lines 125-153) after a
successful `json.loads`, propagating each Python exception it can raise.
Mirrors the source's evaluation order: the type/usage guard with
short-circuit `or`, token extraction, timestamp parse (`ValueError` on a
malformed value escapes the except clause), then `message["model"]` at the
`MessageData` construction. -/
def parse_message_body (data : JVal) (project conversation_id : String) :
    Except PyExc (Option MessageData) := do
  let ty ← pyDictGet data "type"
  if notAssistant ty then
    return none
  else
    let mraw ← pyDictGet data "message"
    let m := mraw.getD (JVal.obj [])
    let hasUsage ← pyIn "usage" m
    if !hasUsage then
      return none
    else
      let message ← pySubscript data "message"
      let usage_data ← pySubscript message "usage"
      let it ← pyDictGet usage_data "input_tokens"
      let ot ← pyDictGet usage_data "output_tokens"
      let cc ← pyDictGet usage_data "cache_creation_input_tokens"
      let cr ← pyDictGet usage_data "cache_read_input_tokens"
      let usage : TokenUsage :=
        { input_tokens := tokenField it, output_tokens := tokenField ot,
          cache_creation_tokens := tokenField cc,
          cache_read_tokens := tokenField cr }
      let tsv ← pySubscript data "timestamp"
      let tss ← match tsv with
        | JVal.str s => Except.ok s
        | _ => Except.error PyExc.attributeError
      let ts := replaceZ tss
      if fromisoformatOk ts then
        let mv ← pySubscript message "model"
        let model := match mv with | JVal.str s => s | _ => ""
        let rid ← pyDictGet data "requestId"
        let request_id := match rid with | some (JVal.str s) => s | _ => ""
        return some
          { timestamp := ts, model := model, usage := usage,
            project := project, request_id := request_id,
            conversation_id := conversation_id }
      else
        Except.error PyExc.valueError

/-- `ClaudeDataParser.parse_message` (lines 123-157).  The input is the
result of `json.loads` on the line, `none` standing for a
`json.JSONDecodeError`.  The `except (json.JSONDecodeError, KeyError)`
clause maps those two exceptions to a skipped line; every other exception
escapes. -/
def parse_message (line : Option JVal) (project conversation_id : String) :
    Except PyExc (Option MessageData) :=
  match line with
  | none => Except.ok none
  | some data =>
    match parse_message_body data project conversation_id with
    | Except.error PyExc.keyError => Except.ok none
    | r => r

/-- The line loop of `ClaudeDataParser.parse_conversation` (lines 159-177):
well-formed messages are accumulated; when a line raises an exception that
escapes `parse_message`, the enclosing `except Exception` catches it, prints
an error, and the messages collected so far are returned — the rest of the
file is lost. -/
def parse_conversation (lines : List (Option JVal))
    (project conversation_id : String) : List MessageData :=
  match lines with
  | [] => []
  | l :: ls =>
    match parse_message l project conversation_id with
    | Except.ok none => parse_conversation ls project conversation_id
    | Except.ok (some m) => m :: parse_conversation ls project conversation_id
    | Except.error _ => []

theorem lookupDate_setDate_self (s : SummaryMap) (k : String)
    (e : DailySummaryEntry) : lookupDate (setDate s k e) k = some e := by
  induction s with
  | nil => simp [setDate, lookupDate]
  | cons hd tl ih =>
    by_cases h : hd.1 = k
    · simp [setDate, lookupDate, h]
    · simpa [setDate, lookupDate, h] using ih

theorem lookupDate_setDate_ne (s : SummaryMap) (k : String)
    (e : DailySummaryEntry) (d : String) (h : d ≠ k) :
    lookupDate (setDate s k e) d = lookupDate s d := by
  induction s with
  | nil => simp [setDate, lookupDate, h, Ne.symm h]
  | cons hd tl ih =>
    by_cases hk : hd.1 = k
    · simp [setDate, lookupDate, hk, h, Ne.symm h]
    · by_cases hd' : hd.1 = d
      · simp [setDate, lookupDate, hk, hd', h]
      · simpa [setDate, lookupDate, hk, hd'] using ih

/-- C10: for every date key other than today, one run of the reconciler
leaves that date's persisted entry unchanged; only today's entry is created
or mutated, whatever dates appear in the JSONL digest or the snapshot. -/
theorem c10_frame_other_dates (st : DaemonState) (summary : SummaryMap)
    (today : String) (data : PollRecord) (d : String) (h : d ≠ today) :
    lookupDate (update_daily_summary st summary today data).summary d =
      lookupDate summary d := by
  simpa [update_daily_summary] using
    lookupDate_setDate_ne summary today _ d h

theorem c10_witness :
    ("2026-01-01" : String) ≠ "2026-01-02" ∧
      lookupDate (update_daily_summary daemonInitState
          [("2026-01-01", initEntry "t0")] "2026-01-02"
          { timestamp := "t1", session := none,
            extra := some { amount_spent := 5, amount_limit := 50 },
            jsonl_by_date :=
              [("2026-01-01", ⟨1, 1, 1, 1, 4⟩), ("2026-01-02", ⟨2, 2, 2, 2, 8⟩)]
          }).summary "2026-01-01"
        = lookupDate [("2026-01-01", initEntry "t0")] "2026-01-01" :=
  ⟨by decide, c10_frame_other_dates _ _ _ _ _ (by decide)⟩

/-- The conservation property of one daily entry:
`session_tokens + extra_tokens == total_tokens` with `extra_tokens` clamped
to `[0, total_tokens]`. -/
def entryConserves (e : DailySummaryEntry) : Bool :=
  (e.session_tokens + e.extra_tokens == e.total_tokens) &&
    decide (0 ≤ e.extra_tokens) && decide (e.extra_tokens ≤ e.total_tokens)

/-- Every entry of a summary map satisfies the conservation property. -/
def summaryConserves (s : SummaryMap) : Bool :=
  s.all (fun p => entryConserves p.2)

theorem pyInt_nonneg (q : ℚ) (h : 0 ≤ q) : 0 ≤ pyInt q := by
  unfold pyInt
  rw [if_pos h]
  exact Rat.le_floor.mpr (by exact_mod_cast h)

theorem entryConserves_tokenStep (lastExtra : Option ℚ)
    (extra : Option ExtraData) (jt : Option JsonlDayTotals)
    (e : DailySummaryEntry) (h : entryConserves e = true) :
    entryConserves (tokenStep lastExtra extra jt e) = true := by
  match jt with
  | none => simpa [tokenStep] using h
  | some dt =>
    have htot : (0 : ℤ) ≤ (dt.total_tokens : ℤ) := Int.ofNat_nonneg _
    match lastExtra, extra with
    | some l, some ex =>
      by_cases hpos : 0 < ex.amount_spent
      · have hest : 0 ≤ pyInt (ex.amount_spent / costPerToken) := by
          apply pyInt_nonneg
          apply div_nonneg hpos.le
          norm_num [costPerToken]
        simp only [tokenStep, hpos, if_true, entryConserves,
          Bool.and_eq_true, beq_iff_eq, decide_eq_true_eq]
        refine And.intro (And.intro ?_ ?_) ?_
        · exact Int.sub_add_cancel _ _
        · exact le_min hest htot
        · exact min_le_right _ _
      · simp [tokenStep, hpos, entryConserves, htot]
    | none, some ex => simp [tokenStep, entryConserves, htot]
    | none, none => simp [tokenStep, entryConserves, htot]
    | some l, none => simp [tokenStep, entryConserves, htot]

theorem entryConserves_deltaStep (lastExtra : Option ℚ)
    (extra : Option ExtraData) (e : DailySummaryEntry)
    (h : entryConserves e = true) :
    entryConserves (deltaStep lastExtra extra e).1 = true := by
  match extra with
  | none => simpa [deltaStep] using h
  | some ex =>
    match lastExtra with
    | some l =>
      by_cases hd : 0 < ex.amount_spent - l
      · simpa [deltaStep, hd, entryConserves] using h
      · simpa [deltaStep, hd] using h
    | none => simpa [deltaStep] using h

theorem entryConserves_resetStep (lastReset : Option String)
    (session : Option SessionData) (e : DailySummaryEntry)
    (h : entryConserves e = true) :
    entryConserves (resetStep lastReset session e).1 = true := by
  match session with
  | none => simpa [resetStep] using h
  | some s =>
    match lastReset with
    | some r =>
      by_cases hr : r ≠ s.reset_time
      · simpa [resetStep, hr, entryConserves] using h
      · simpa [resetStep, hr] using h
    | none => simpa [resetStep] using h

theorem entryConserves_lookup (s : SummaryMap) (d : String)
    (e : DailySummaryEntry) (hs : summaryConserves s = true)
    (h : lookupDate s d = some e) : entryConserves e = true := by
  induction s with
  | nil => simp [lookupDate] at h
  | cons hd tl ih =>
    rw [summaryConserves, List.all_cons, Bool.and_eq_true] at hs
    by_cases hk : hd.1 = d
    · have : some hd.2 = some e := by
        simpa [lookupDate, hk] using h
      cases this
      exact hs.1
    · refine ih hs.2 ?_
      simpa [lookupDate, hk] using h

theorem summaryConserves_setDate (s : SummaryMap) (d : String)
    (e : DailySummaryEntry) (hs : summaryConserves s = true)
    (he : entryConserves e = true) :
    summaryConserves (setDate s d e) = true := by
  induction s with
  | nil => simp [setDate, summaryConserves, he]
  | cons hd tl ih =>
    rcases hd with ⟨k, v⟩
    rw [summaryConserves, List.all_cons, Bool.and_eq_true] at hs
    by_cases hk : k = d
    · subst hk
      rw [show setDate ((k, v) :: tl) k e = (k, e) :: tl by simp [setDate]]
      rw [summaryConserves, List.all_cons, Bool.and_eq_true]
      exact And.intro he hs.2
    · rw [show setDate ((k, v) :: tl) d e = (k, v) :: setDate tl d e by
        simp [setDate, hk]]
      rw [summaryConserves, List.all_cons, Bool.and_eq_true]
      refine And.intro hs.1 ?_
      have := ih hs.2
      rw [summaryConserves] at this
      exact this

/-- C2: the conservation invariant — for every date whose entry is persisted,
`session_tokens + extra_tokens == total_tokens` with `extra_tokens` in
`[0, total_tokens]` — is preserved by every reconciler run; when today's
JSONL total and the snapshot's extra section are both present, today's entry
is recomputed so that it satisfies the invariant outright. -/
theorem c2_conservation_invariant (st : DaemonState) (summary : SummaryMap)
    (today : String) (data : PollRecord)
    (hs : summaryConserves summary = true) :
    summaryConserves (update_daily_summary st summary today data).summary
      = true := by
  have he0 : entryConserves
      ((lookupDate summary today).getD (initEntry data.timestamp)) = true := by
    cases hl : lookupDate summary today with
    | none => simp [initEntry, entryConserves]
    | some e =>
      simpa using entryConserves_lookup summary today e hs hl
  have he1 := entryConserves_tokenStep st.last_extra_usage data.extra
    (lookupDay data.jsonl_by_date today) _ he0
  have he2 := entryConserves_deltaStep st.last_extra_usage data.extra _ he1
  have he3 := entryConserves_resetStep st.last_session_reset data.session _ he2
  have he4 : entryConserves
      { (resetStep st.last_session_reset data.session
          (deltaStep st.last_extra_usage data.extra
            (tokenStep st.last_extra_usage data.extra
              (lookupDay data.jsonl_by_date today)
              ((lookupDate summary today).getD (initEntry data.timestamp)))).1).1
        with last_updated := data.timestamp } = true := by
    simpa [entryConserves] using he3
  simpa [update_daily_summary] using
    summaryConserves_setDate summary today _ hs he4

theorem c2_witness :
    summaryConserves [("2026-01-01", initEntry "t0")] = true ∧
      summaryConserves (update_daily_summary
        (DaemonState.mk (some 1) (some "2pm"))
        [("2026-01-01", initEntry "t0")] "2026-01-02"
        (PollRecord.mk "t1"
          (some (SessionData.mk 32 "7pm" "America/New_York"))
          (some (ExtraData.mk 3 50))
          [("2026-01-02", JsonlDayTotals.mk 1 2 3 4 10)])).summary
        = true :=
  ⟨by decide, c2_conservation_invariant _ _ _ _ (by decide)⟩

/-- C3 counterexample: the claim fails on the code in two ways.  With an
empty starting state, a record carrying an extra section and a session
label, and a failing summary-file write, the carried baselines are NOT
unchanged (they already hold the snapshot's values), and the disk trace of
the source's in-place write passes through a truncated/partial state, which
the claimed write-to-temp-then-rename discipline never does. -/
theorem c3_counterexample :
    (update_daily_summary_io daemonInitState [] "2026-01-01"
        (PollRecord.mk "t1"
          (some (SessionData.mk 40 "7pm" "America/New_York"))
          (some (ExtraData.mk 5 50)) [])
        false).state ≠ daemonInitState ∧
      DiskFile.midWrite ∈
        directWriteTrace [] [("2026-01-01", initEntry "t1")] ∧
      DiskFile.midWrite ∉
        tempRenameTrace [] [("2026-01-01", initEntry "t1")] := by
  refine And.intro ?_ (And.intro ?_ ?_)
  · decide
  · decide
  · decide

/-- C3 amended: any exception raised at the summary-file write is caught by
the enclosing handler, the call returns normally, and the persisted summary
map is unchanged; however the carried baselines `last_extra_usage` and
`last_session_reset`, mutated before the write, keep their new values, and
the file itself is rewritten in place (truncate-then-write), not by
write-to-temp-then-rename. -/
theorem c3_failure_semantics_amended (st : DaemonState)
    (persisted : SummaryMap) (today : String) (data : PollRecord) :
    (update_daily_summary_io st persisted today data false).summary
        = persisted ∧
      (update_daily_summary_io st persisted today data false).state
        = (update_daily_summary st persisted today data).state ∧
      directWriteTrace persisted
          (update_daily_summary st persisted today data).summary
        = [DiskFile.complete persisted, DiskFile.midWrite,
           DiskFile.complete
             (update_daily_summary st persisted today data).summary] := by
  refine And.intro ?_ (And.intro ?_ ?_)
  · simp [update_daily_summary_io]
  · simp [update_daily_summary_io]
  · simp [directWriteTrace]

/-- C4 counterexample: on restart the daemon's baselines are `None`
regardless of the persisted poll history.  With a last persisted record
showing 5 spent and label "7pm", a first post-restart cycle seeing 7 spent
detects nothing, whereas a reconciler rehydrated from that record (what the
claim asserts) detects the +2 overage delta. -/
theorem c4_counterexample :
    daemonInitState.last_extra_usage = none ∧
      daemonInitState.last_session_reset = none ∧
      rehydrateBaselines
          [PollRecord.mk "t0"
            (some (SessionData.mk 40 "7pm" "America/New_York"))
            (some (ExtraData.mk 5 50)) []]
        = DaemonState.mk (some 5) (some "7pm") ∧
      (update_daily_summary daemonInitState [] "2026-01-02"
          (PollRecord.mk "t1"
            (some (SessionData.mk 10 "7pm" "America/New_York"))
            (some (ExtraData.mk 7 50)) [])).events = [] ∧
      (update_daily_summary
          (rehydrateBaselines
            [PollRecord.mk "t0"
              (some (SessionData.mk 40 "7pm" "America/New_York"))
              (some (ExtraData.mk 5 50)) []])
          [] "2026-01-02"
          (PollRecord.mk "t1"
            (some (SessionData.mk 10 "7pm" "America/New_York"))
            (some (ExtraData.mk 7 50)) [])).events
        = [DaemonEvent.overageDelta 2] := by
  refine And.intro rfl (And.intro rfl (And.intro (by decide)
    (And.intro (by decide) ?_)))
  have h75 : (7 : ℚ) - 5 = 2 := by norm_num
  have hpos : (0 : ℚ) < 7 - 5 := by norm_num
  simp [update_daily_summary, tokenStep, deltaStep, resetStep,
    rehydrateBaselines, lookupDay, h75, hpos]

/-- C4 amended: `ClaudeUsageDaemon.__init__` sets both baselines to `None`
and never reads them back from persisted records, so the first cycle after
any restart treats its snapshot as a first-ever observation: it can detect
no overage delta and no session reset, whatever the persisted history
contained. -/
theorem c4_restart_baselines_amended (summary : SummaryMap) (today : String)
    (data : PollRecord) :
    (update_daily_summary daemonInitState summary today data).events = [] := by
  cases hx : data.extra with
  | none =>
    cases hs : data.session with
    | none => simp [update_daily_summary, deltaStep, resetStep,
        daemonInitState, hx, hs]
    | some s => simp [update_daily_summary, deltaStep, resetStep,
        daemonInitState, hx, hs]
  | some ex =>
    cases hs : data.session with
    | none => simp [update_daily_summary, deltaStep, resetStep,
        daemonInitState, hx, hs]
    | some s => simp [update_daily_summary, deltaStep, resetStep,
        daemonInitState, hx, hs]

/-- A poll record carrying only an extra-usage snapshot (no session section,
no JSONL totals), used to exercise the overage delta detector. -/
def mkExtraRec (a : ℚ) : PollRecord :=
  PollRecord.mk "t" none (some (ExtraData.mk a 100)) []

/-- The per-cycle event trace the overage detector should produce on a
sequence of spent amounts starting from a fresh baseline: nothing on the
first snapshot, then one overage event per strict increase between
consecutive snapshots. -/
def overageTrace : List ℚ → List (List DaemonEvent)
  | [] => []
  | a :: rest =>
    [] :: (List.zip (a :: rest) rest).map
      (fun pc => if pc.1 < pc.2 then [DaemonEvent.overageDelta (pc.2 - pc.1)]
        else [])

/-- The overage amount carried by one logged event. -/
def eventDelta : DaemonEvent → ℚ
  | DaemonEvent.overageDelta d => d
  | DaemonEvent.sessionReset _ _ => 0

/-- Sum of all overage deltas over a per-cycle event trace. -/
def deltaSum (evts : List (List DaemonEvent)) : ℚ :=
  (evts.map (fun l => (l.map eventDelta).sum)).sum

theorem extraRec_step (st : DaemonState) (sum : SummaryMap) (today : String)
    (a : ℚ) :
    (update_daily_summary st sum today (mkExtraRec a)).events
        = (match st.last_extra_usage with
          | some l =>
            if 0 < a - l then [DaemonEvent.overageDelta (a - l)] else []
          | none => []) ∧
      (update_daily_summary st sum today (mkExtraRec a)).state
        = DaemonState.mk (some a) st.last_session_reset := by
  rcases st with ⟨lx, lr⟩
  cases lx with
  | none =>
    simp [update_daily_summary, mkExtraRec, tokenStep, deltaStep, resetStep,
      lookupDay]
  | some l =>
    by_cases hc : 0 < a - l <;>
      simp [update_daily_summary, mkExtraRec, tokenStep, deltaStep, resetStep,
        lookupDay, hc]

theorem runCycles_extra_from_some (l : ℚ) (lr : Option String)
    (sum : SummaryMap) (today : String) (as : List ℚ) :
    (runCycles (DaemonState.mk (some l) lr) sum today
        (as.map mkExtraRec)).2.2
      = (List.zip (l :: as) as).map
          (fun pc => if 0 < pc.2 - pc.1
            then [DaemonEvent.overageDelta (pc.2 - pc.1)] else []) := by
  induction as generalizing l lr sum with
  | nil => simp [runCycles]
  | cons a rest ih =>
    have hstep := extraRec_step (DaemonState.mk (some l) lr) sum today a
    simp only [List.map_cons, runCycles, List.zip_cons_cons]
    rw [hstep.1, hstep.2] at *
    simp only [List.map_cons]
    rw [hstep.2]
    refine congrArg₂ _ rfl ?_
    exact ih a lr _

theorem deltaSum_cons (l : List DaemonEvent) (ls : List (List DaemonEvent)) :
    deltaSum (l :: ls) = (l.map eventDelta).sum + deltaSum ls := by
  simp [deltaSum]

theorem overage_if_sum (ps : List (ℚ × ℚ)) :
    deltaSum (ps.map
        (fun pc => if 0 < pc.2 - pc.1
          then [DaemonEvent.overageDelta (pc.2 - pc.1)] else []))
      = (ps.map (fun pc => if 0 < pc.2 - pc.1 then pc.2 - pc.1 else 0)).sum := by
  induction ps with
  | nil => simp [deltaSum]
  | cons p ps ih =>
    have hhead : ((if 0 < p.2 - p.1
        then [DaemonEvent.overageDelta (p.2 - p.1)] else []).map
          eventDelta).sum
        = (if 0 < p.2 - p.1 then p.2 - p.1 else 0) := by
      by_cases hc : 0 < p.2 - p.1
      · rw [if_pos hc, if_pos hc]
        simp [eventDelta]
      · rw [if_neg hc, if_neg hc]
        simp
    rw [List.map_cons, deltaSum_cons, ih, List.map_cons, List.sum_cons, hhead]

theorem overage_telescope (l : ℚ) (rest : List ℚ)
    (h : List.Chain' (· ≤ ·) (l :: rest)) :
    ((List.zip (l :: rest) rest).map
        (fun pc => if 0 < pc.2 - pc.1 then pc.2 - pc.1 else 0)).sum
      = rest.getLastD l - l := by
  induction rest generalizing l with
  | nil => simp
  | cons a rest ih =>
    have h1 : l ≤ a := (List.chain'_cons.mp h).1
    have h2 : List.Chain' (· ≤ ·) (a :: rest) := (List.chain'_cons.mp h).2
    have hif : (if 0 < a - l then a - l else 0) = a - l := by
      by_cases hc : 0 < a - l
      · simp [hc]
      · have : a - l = 0 := le_antisymm (not_lt.mp hc) (by linarith)
        simp [hc, this]
    simp only [List.zip_cons_cons, List.map_cons, List.sum_cons, hif,
      List.getLastD_cons]
    rw [ih a h2]
    ring

/-- C5: starting from a fresh baseline, feeding the reconciler a sequence of
snapshots whose `amount_spent` is defined at every step and non-decreasing
produces a positive overage delta exactly at the steps where the amount
strictly increases (the event carries that step's difference), and the sum
of all detected deltas equals the last amount minus the first; equal
consecutive amounts produce no event and no change. -/
theorem c5_monotonic_overage_deltas (sum : SummaryMap) (today : String)
    (as : List ℚ) (h : List.Chain' (· ≤ ·) as) (hne : as ≠ []) :
    (runCycles daemonInitState sum today (as.map mkExtraRec)).2.2
        = overageTrace as ∧
      deltaSum (runCycles daemonInitState sum today (as.map mkExtraRec)).2.2
        = as.getLast hne - as.head hne := by
  match as, hne with
  | a :: rest, _ =>
    have hstep := extraRec_step daemonInitState sum today a
    have hrun : (runCycles daemonInitState sum today
        ((a :: rest).map mkExtraRec)).2.2
        = [] :: (List.zip (a :: rest) rest).map
            (fun pc => if 0 < pc.2 - pc.1
              then [DaemonEvent.overageDelta (pc.2 - pc.1)] else []) := by
      simp only [List.map_cons, runCycles]
      rw [hstep.1, hstep.2]
      simp only [daemonInitState]
      refine congrArg₂ _ rfl ?_
      exact runCycles_extra_from_some a none _ today rest
    constructor
    · rw [hrun, overageTrace]
      refine congrArg₂ _ rfl (List.map_congr_left ?_)
      intro pc _
      simp [sub_pos]
    · rw [hrun]
      have : deltaSum ([] :: (List.zip (a :: rest) rest).map
          (fun pc => if 0 < pc.2 - pc.1
            then [DaemonEvent.overageDelta (pc.2 - pc.1)] else []))
          = ((List.zip (a :: rest) rest).map
              (fun pc => if 0 < pc.2 - pc.1 then pc.2 - pc.1 else 0)).sum := by
        rw [← overage_if_sum]
        simp [deltaSum]
      rw [this, overage_telescope a rest h]
      simp [List.getLast_eq_getLastD]

theorem c5_witness :
    List.Chain' (fun x1 x2 => x1 ≤ x2) [(1 : ℚ), 1, 3] ∧
      ([(1 : ℚ), 1, 3] ≠ []) ∧
      deltaSum (runCycles daemonInitState [] "2026-01-01"
        ([(1 : ℚ), 1, 3].map mkExtraRec)).2.2 = 2 := by
  refine And.intro (by norm_num [List.chain'_cons]) (And.intro (by simp) ?_)
  have h := c5_monotonic_overage_deltas [] "2026-01-01" [(1 : ℚ), 1, 3]
    (by norm_num [List.chain'_cons]) (by simp)
  rw [h.2]
  norm_num [List.getLast]

/-- A poll record carrying only a session snapshot with the given reset-time
label (no extra section, no JSONL totals), used to exercise the reset
detector. -/
def mkSessionRec (lbl : String) : PollRecord :=
  PollRecord.mk "t" (some (SessionData.mk 0 lbl "America/New_York")) none []

/-- C6: within one calendar date, processing snapshots whose reset-time
labels are `[A, A, B, B, B, C]` (pairwise distinct) increments today's
`sessions_count` exactly twice, with the two reset events produced at the
first `B` and at the first `C`; a label equal to the previous one, or the
first label ever observed, produces no event. -/
theorem c6_reset_counting (A B C : String) (hAB : A ≠ B) (hBC : B ≠ C)
    (hAC : A ≠ C) :
    ((lookupDate (runCycles daemonInitState [] "2026-01-01"
          ([A, A, B, B, B, C].map mkSessionRec)).2.1 "2026-01-01").map
        (fun e => e.sessions_count)) = some 2 ∧
      (runCycles daemonInitState [] "2026-01-01"
          ([A, A, B, B, B, C].map mkSessionRec)).2.2
        = [[], [], [DaemonEvent.sessionReset A B], [], [],
           [DaemonEvent.sessionReset B C]] := by
  constructor
  · simp [runCycles, update_daily_summary, tokenStep, deltaStep, resetStep,
      mkSessionRec, lookupDay, lookupDate, setDate, daemonInitState,
      initEntry, hAB, hBC]
  · simp [runCycles, update_daily_summary, tokenStep, deltaStep, resetStep,
      mkSessionRec, lookupDay, lookupDate, setDate, daemonInitState,
      initEntry, hAB, hBC]

theorem c6_witness :
    ("a" : String) ≠ "b" ∧ ("b" : String) ≠ "c" ∧ ("a" : String) ≠ "c" ∧
      ((lookupDate (runCycles daemonInitState [] "2026-01-01"
            (["a", "a", "b", "b", "b", "c"].map mkSessionRec)).2.1
          "2026-01-01").map (fun e => e.sessions_count)) = some 2 := by
  refine And.intro (by decide) (And.intro (by decide)
    (And.intro (by decide) ?_))
  exact (c6_reset_counting "a" "b" "c" (by decide) (by decide) (by decide)).1

theorem resetBetween_iff (p c : LogEntry) :
    resetBetween p c = true ↔
      ∃ pp cp, p.session_percent = some pp ∧ c.session_percent = some cp ∧
        (p.session_reset_time ≠ c.session_reset_time ∨ pp > cp + 50) := by
  cases hp : p.session_percent with
  | none => simp [resetBetween, LogEntry.has_session_data, hp]
  | some pp =>
    cases hc : c.session_percent with
    | none => simp [resetBetween, LogEntry.has_session_data, hp, hc]
    | some cp =>
      by_cases hl : p.session_reset_time ≠ c.session_reset_time
      · simp [resetBetween, LogEntry.has_session_data, hp, hc, hl]
      · simp [resetBetween, LogEntry.has_session_data, hp, hc, hl]

theorem mem_detectFrom (prev : LogEntry) (i j : ℕ) (rest : List LogEntry) :
    j ∈ detectFrom prev i rest ↔
      ∃ k p c, (prev :: rest).get? k = some p ∧ rest.get? k = some c ∧
        resetBetween p c = true ∧ j = i + k := by
  induction rest generalizing prev i with
  | nil => simp [detectFrom]
  | cons c rest ih =>
    simp only [detectFrom, List.mem_append]
    constructor
    · intro h
      rcases h with h | h
      · have hc : resetBetween prev c = true ∧ j = i := by
          by_cases hb : resetBetween prev c = true
          · simp [hb] at h
            exact ⟨hb, h⟩
          · simp [hb] at h
        exact ⟨0, prev, c, by simp, by simp, hc.1, by omega⟩
      · rcases (ih c (i + 1)).mp h with ⟨k, p, c', h1, h2, h3, h4⟩
        exact ⟨k + 1, p, c', by simpa using h1, by simpa using h2, h3,
          by omega⟩
    · rintro ⟨k, p, c', h1, h2, h3, h4⟩
      cases k with
      | zero =>
        left
        simp only [List.get?_cons_zero, Option.some.injEq] at h1 h2
        rw [← h1, ← h2] at h3
        simp [h3, h4]
      | succ k =>
        right
        refine (ih c (i + 1)).mpr ⟨k, p, c', by simpa using h1,
          by simpa using h2, h3, by omega⟩

/-- C9: the validator's reset detection returns exactly the indices
`i ≥ 1` such that entries `i-1` and `i` both carry session data and either
the reset-time label changed or the session percentage dropped by strictly
more than 50 points; in particular an entry lacking session data never
produces a reset boundary. -/
theorem c9_detect_session_resets_exact (entries : List LogEntry) (i : ℕ) :
    i ∈ detect_session_resets entries ↔
      ∃ p c pp cp, 1 ≤ i ∧ entries.get? (i - 1) = some p ∧
        entries.get? i = some c ∧
        p.session_percent = some pp ∧ c.session_percent = some cp ∧
        (p.session_reset_time ≠ c.session_reset_time ∨ pp > cp + 50) := by
  cases entries with
  | nil =>
    simp [detect_session_resets]
  | cons e rest =>
    rw [show detect_session_resets (e :: rest) = detectFrom e 1 rest from rfl]
    rw [mem_detectFrom]
    constructor
    · rintro ⟨k, p, c, h1, h2, h3, h4⟩
      rcases (resetBetween_iff p c).mp h3 with ⟨pp, cp, hpp, hcp, hor⟩
      refine ⟨p, c, pp, cp, by omega, ?_, ?_, hpp, hcp, hor⟩
      · have : i - 1 = k := by omega
        rw [this]
        exact h1
      · have : i = k + 1 := by omega
        rw [this]
        simpa using h2
    · rintro ⟨p, c, pp, cp, hi, h1, h2, hpp, hcp, hor⟩
      obtain ⟨i', rfl⟩ : ∃ i', i = i' + 1 := ⟨i - 1, by omega⟩
      refine ⟨i', p, c, ?_, ?_, ?_, by omega⟩
      · simpa using h1
      · simpa using h2
      · exact (resetBetween_iff p c).mpr ⟨pp, cp, hpp, hcp, hor⟩

/-- C8 counterexample: the hour parser does not reject hours outside 1-12.
The input "13am" parses to hour 13, and the session-window calculator
accepts it and returns a window start (at 10:00, today's 13:00 reset is
ahead, so the window began at 13:00 - 5h = 8:00 = minute 480). -/
theorem c8_counterexample :
    parse_time_to_hour "13am" = some 13 ∧
      calculate_session_start_time (PyTime.mk 0 10 0) "13am" = some 480 := by
  exact ⟨by decide, by decide⟩

/-- C8 amended: the reset-hour parser extracts the digits and applies the
am/pm adjustment with no 1-12 range validation; any input whose adjusted
hour lands in 0-23 is accepted (rejection happens only indirectly, when the
adjusted hour falls outside `datetime.replace`'s 0-23 range or no digits are
present).  For every accepted hour, the calculator returns today's reset
instant minus 5 hours when the current time precedes that instant, and
exactly today's reset instant otherwise. -/
theorem c8_session_window_amended (now : PyTime) (s : String) (h : ℤ)
    (hp : parse_time_to_hour s = some h) (h0 : 0 ≤ h) (h23 : h ≤ 23) :
    calculate_session_start_time now s =
      some (if now.toMinutes < now.day * 1440 + h * 60
        then now.day * 1440 + h * 60 - 300
        else now.day * 1440 + h * 60) := by
  simp only [calculate_session_start_time, hp]
  rw [if_pos (And.intro h0 h23)]
  by_cases hc : now.toMinutes < now.day * 1440 + h * 60
  · simp [hc]
  · simp [hc]

theorem c8_witness :
    parse_time_to_hour "2pm" = some 14 ∧ (0 : ℤ) ≤ 14 ∧ (14 : ℤ) ≤ 23 ∧
      calculate_session_start_time (PyTime.mk 1 13 30) "2pm" = some 1980 := by
  have hp : parse_time_to_hour "2pm" = some 14 := by decide
  refine And.intro hp (And.intro (by decide) (And.intro (by decide) ?_))
  rw [c8_session_window_amended (PyTime.mk 1 13 30) "2pm" 14 hp (by decide)
    (by decide)]
  decide

/-- C1 counterexample: reconciling the identical record twice in succession
is not idempotent.  Starting from a fresh daemon state, a record whose extra
section reports 3 spent and whose JSONL digest gives today 1000000 tokens:
the first run attributes all 1000000 tokens to session usage (no prior
overage baseline), but the second run — the baseline now being set — re-splits
them as 1000000 extra tokens and 0 session tokens, so the persisted entry
for the date differs between the two runs. -/
theorem c1_counterexample :
    lookupDate (update_daily_summary
        (update_daily_summary daemonInitState [] "2026-01-01"
          (PollRecord.mk "T" none (some (ExtraData.mk 3 50))
            [("2026-01-01", JsonlDayTotals.mk 0 0 0 0 1000000)])).state
        (update_daily_summary daemonInitState [] "2026-01-01"
          (PollRecord.mk "T" none (some (ExtraData.mk 3 50))
            [("2026-01-01", JsonlDayTotals.mk 0 0 0 0 1000000)])).summary
        "2026-01-01"
        (PollRecord.mk "T" none (some (ExtraData.mk 3 50))
          [("2026-01-01", JsonlDayTotals.mk 0 0 0 0 1000000)])).summary
      "2026-01-01"
    ≠ lookupDate (update_daily_summary daemonInitState [] "2026-01-01"
        (PollRecord.mk "T" none (some (ExtraData.mk 3 50))
          [("2026-01-01", JsonlDayTotals.mk 0 0 0 0 1000000)])).summary
      "2026-01-01" := by
  have hdiv : (3 : ℚ) / costPerToken = 1000000 := by norm_num [costPerToken]
  have hpy : pyInt ((3 : ℚ) / costPerToken) = 1000000 := by
    rw [hdiv]
    decide
  have h3 : (0 : ℚ) < 3 := by norm_num
  have hsub : ¬ (0 : ℚ) < 3 - 3 := by norm_num
  simp [update_daily_summary, tokenStep, deltaStep, resetStep, lookupDay,
    lookupDate, setDate, daemonInitState, initEntry, hpy, h3, hsub]

/-- C1 amended: running the reconciler twice in succession within the same
calendar date on the identical input record produces an identical persisted
entry for that date, provided the carried `last_extra_usage` baseline was
already defined before the first run or the record carries no extra-usage
section.  (When the first run is the first-ever observation of positive
extra spend with a positive token total, the second run re-splits the
session/extra token attribution, as the counterexample shows.) -/
theorem c1_reconcile_idempotent_amended (st : DaemonState) (sum : SummaryMap)
    (today : String) (data : PollRecord)
    (h : st.last_extra_usage ≠ none ∨ data.extra = none) :
    lookupDate (update_daily_summary
        (update_daily_summary st sum today data).state
        (update_daily_summary st sum today data).summary today data).summary
      today
    = lookupDate (update_daily_summary st sum today data).summary today := by
  rcases st with ⟨lx, lr⟩
  simp only [update_daily_summary, lookupDate_setDate_self, Option.getD_some]
  cases hx : data.extra with
  | none =>
    cases hj : lookupDay data.jsonl_by_date today with
    | none =>
      cases hs : data.session with
      | none => simp [tokenStep, deltaStep, resetStep]
      | some s =>
        cases lr with
        | none => simp [tokenStep, deltaStep, resetStep]
        | some r =>
          by_cases hlab : r = s.reset_time
          · simp [tokenStep, deltaStep, resetStep, hlab]
          · simp [tokenStep, deltaStep, resetStep, hlab]
    | some dt =>
      cases hs : data.session with
      | none => cases lx <;> simp [tokenStep, deltaStep, resetStep]
      | some s =>
        cases lr with
        | none => cases lx <;> simp [tokenStep, deltaStep, resetStep]
        | some r =>
          by_cases hlab : r = s.reset_time
          · cases lx <;> simp [tokenStep, deltaStep, resetStep, hlab]
          · cases lx <;> simp [tokenStep, deltaStep, resetStep, hlab]
  | some ex =>
    obtain ⟨l, rfl⟩ : ∃ l, lx = some l := by
      rcases h with h | h
      · cases hl : lx with
        | none => exact absurd hl h
        | some l => exact ⟨l, rfl⟩
      · rw [h] at hx
        cases hx
    by_cases hd : l < ex.amount_spent <;>
    by_cases hpos : 0 < ex.amount_spent <;>
    cases hj : lookupDay data.jsonl_by_date today <;>
    rcases hs : data.session with _ | s <;>
    rcases lr with _ | r <;>
    first
      | (simp [tokenStep, deltaStep, resetStep, hd, hpos]; done)
      | (by_cases hlab : r = s.reset_time <;>
          simp [tokenStep, deltaStep, resetStep, hd, hpos, hlab])

theorem c1_witness :
    ((DaemonState.mk (some 2) none).last_extra_usage ≠ none ∨
        (PollRecord.mk "T" none (some (ExtraData.mk 3 50))
          [("2026-01-01", JsonlDayTotals.mk 0 0 0 0 9)]).extra = none) ∧
      lookupDate (update_daily_summary
          (update_daily_summary (DaemonState.mk (some 2) none) []
            "2026-01-01"
            (PollRecord.mk "T" none (some (ExtraData.mk 3 50))
              [("2026-01-01", JsonlDayTotals.mk 0 0 0 0 9)])).state
          (update_daily_summary (DaemonState.mk (some 2) none) []
            "2026-01-01"
            (PollRecord.mk "T" none (some (ExtraData.mk 3 50))
              [("2026-01-01", JsonlDayTotals.mk 0 0 0 0 9)])).summary
          "2026-01-01"
          (PollRecord.mk "T" none (some (ExtraData.mk 3 50))
            [("2026-01-01", JsonlDayTotals.mk 0 0 0 0 9)])).summary
        "2026-01-01"
      = lookupDate (update_daily_summary (DaemonState.mk (some 2) none) []
          "2026-01-01"
          (PollRecord.mk "T" none (some (ExtraData.mk 3 50))
            [("2026-01-01", JsonlDayTotals.mk 0 0 0 0 9)])).summary
        "2026-01-01" :=
  ⟨Or.inl (by decide), c1_reconcile_idempotent_amended _ _ _ _
    (Or.inl (by decide))⟩

/-- A well-formed usage line: assistant message with usage payload, valid
timestamp, model and request id. -/
def goodLine (rid : String) : Option JVal :=
  some (JVal.obj
    [("type", JVal.str "assistant"),
     ("timestamp", JVal.str "2026-01-11T10:00:00Z"),
     ("message", JVal.obj
       [("model", JVal.str "claude-sonnet-4-5"),
        ("usage", JVal.obj
          [("input_tokens", JVal.num 5), ("output_tokens", JVal.num 7)])]),
     ("requestId", JVal.str rid)])

/-- A malformed line whose JSON decodes but whose `timestamp` key is absent:
`KeyError`, caught and skipped. -/
def lineMissingTimestamp : Option JVal :=
  some (JVal.obj
    [("type", JVal.str "assistant"),
     ("message", JVal.obj
       [("model", JVal.str "m"), ("usage", JVal.obj [])])])

/-- A malformed line whose `message` dict lacks the `model` key: `KeyError`,
caught and skipped. -/
def lineMissingModel : Option JVal :=
  some (JVal.obj
    [("type", JVal.str "assistant"),
     ("timestamp", JVal.str "2026-01-11T10:00:00Z"),
     ("message", JVal.obj [("usage", JVal.obj [])])])

/-- A malformed line with an unparseable timestamp value: `ValueError` from
`datetime.fromisoformat`, which the `except (json.JSONDecodeError, KeyError)`
clause does not catch. -/
def lineBadTimestamp : Option JVal :=
  some (JVal.obj
    [("type", JVal.str "assistant"),
     ("timestamp", JVal.str "not-a-date"),
     ("message", JVal.obj
       [("model", JVal.str "m"), ("usage", JVal.obj [])])])

/-- Ten well-formed lines interleaved with five malformed ones, one of which
has an unparseable timestamp value (after the fifth well-formed line). -/
def linesWithBadValue : List (Option JVal) :=
  [goodLine "r1", goodLine "r2", goodLine "r3", none, goodLine "r4",
   lineMissingTimestamp, goodLine "r5", lineBadTimestamp, goodLine "r6",
   goodLine "r7", goodLine "r8", goodLine "r9", goodLine "r10", none,
   lineMissingModel]

/-- Ten well-formed lines interleaved with five malformed ones of the two
caught kinds only (invalid JSON and missing keys). -/
def linesCaughtKindsOnly : List (Option JVal) :=
  [goodLine "r1", goodLine "r2", goodLine "r3", none, goodLine "r4",
   lineMissingTimestamp, goodLine "r5", lineMissingModel, goodLine "r6",
   goodLine "r7", goodLine "r8", goodLine "r9", goodLine "r10", none,
   lineMissingTimestamp]

/-- C7: evaluation of the claim's scenario on the code.  Invalid-JSON and
missing-key lines are silently skipped, so a file with ten well-formed lines
and five malformed lines of those kinds parses exactly ten messages; but a
malformed line whose timestamp value is unparseable raises a `ValueError`
that escapes `parse_message`, so the enclosing handler aborts the file and
only the five well-formed lines before it survive — not ten as the claim
requires. -/
theorem c7_bad_timestamp_aborts_file :
    (parse_conversation linesWithBadValue "proj" "conv").length = 5 ∧
      (parse_conversation linesCaughtKindsOnly "proj" "conv").length = 10 := by
  exact ⟨by decide, by decide⟩

theorem c9_witness :
    1 ∈ detect_session_resets
      [LogEntry.mk 1 (some 80) (some "7pm") none none,
       LogEntry.mk 2 (some 79) (some "9pm") none none] :=
  (c9_detect_session_resets_exact
      [LogEntry.mk 1 (some 80) (some "7pm") none none,
       LogEntry.mk 2 (some 79) (some "9pm") none none] 1).mpr
    ⟨LogEntry.mk 1 (some 80) (some "7pm") none none,
     LogEntry.mk 2 (some 79) (some "9pm") none none, 80, 79,
     by decide, by decide, by decide, by decide, by decide,
     Or.inl (by decide)⟩
